import Mathlib

/-!
Verification of the solution-space / hint path-finder core of the
codetracker-data repository, as a shallow embedding in Lean 4.

The embedded operations come from:
* `src/main/solution_space/serialized_code.py` (`SerializedCode.add_anon_tree`,
  `SerializedCode.find_anon_tree`, `AnonTree.add_code_info`),
* `src/main/solution_space/solution_space_handler.py` (`__remove_loops`),
* `src/main/solution_space/path_finder/path_finder_v_1.py` and
  `path_finder_v_2.py` (`find_next_vertex`, `__go_through_graph`,
  `__is_far_from_graph`, `__is_most_of_path_is_done`, `__is_rate_worse`,
  `__choose_best_vertex`, `__find_closest_goal`,
  `__find_closest_vertex_with_path`),
* `src/main/solution_space/path_finder.py` (legacy `PathFinder.__choose_best_vertex`
  and `MeasuredVertex.__lt__`),
* `src/main/solution_space/consts.py` (threshold constants).

External collaborators (the AST parser/canonicalizer, the GumTree edit-distance
tool and the tree-to-source renderer) and repository files that are not under
`src/` (`solution_graph.py`, `data_classes.py`, the `IPathFinder` base class)
are modelled from the spec where a claim needs them; each such definition says
so in its doc comment.
-/

namespace CodeTracker

/-- A syntax tree. The real code works with Python `ast.AST` objects; the
claims only need that trees form a type with a decidable structural equality
(`are_asts_equal`) and a node count, so trees are embedded as labelled binary
trees: two distinct trees can share a node count, which keeps the node-count
pre-filter of `find_anon_tree` meaningful. -/
inductive ATree where
  | leaf : Nat → ATree
  | node : Nat → ATree → ATree → ATree
deriving DecidableEq, Repr, Inhabited

/-- `canonicalization.are_asts_equal`: structural equality of two trees
(the source dumps both ASTs and compares the dumps). -/
def are_asts_equal (a b : ATree) : Bool :=
  decide (a = b)

/-- `AstStructure.get_nodes_number_in_ast`: the number of nodes of a tree. -/
def get_nodes_number_in_ast : ATree → Nat
  | ATree.leaf _ => 1
  | ATree.node _ l r => 1 + get_nodes_number_in_ast l + get_nodes_number_in_ast r

/-- The tree of the empty source `''` (one empty `Module` node): the tree that
`Code.from_source('', ...)` produces and that the external renderer
`get_code_from_tree` maps back to the empty string. -/
def emptyATree : ATree := ATree.leaf 0

/-- `data_classes.CodeInfo`. Modelled from the spec: `data_classes.py` is not
under `src/`; the spec (§3) describes a `CodeInfo` as one observed occurrence
of a variant — the producing user plus a timestamp. The graph operations
treat it as opaque payload. -/
structure CodeInfo where
  user : Nat
  timestamp : Nat
deriving DecidableEq, Repr

/-- `serialized_code.AnonTree`: one anonymized variant — its tree, its
pass-rate and its append-only list of `CodeInfo` occurrences. The source also
caches the tree's `ast_structure` at construction; since the tree is
immutable, the cached node count always equals
`get_nodes_number_in_ast tree`, so it is embedded as the derived function
`AnonTree.nodes_number` below. -/
structure AnonTree where
  tree : ATree
  rate : ℚ
  code_info_list : List CodeInfo
deriving DecidableEq, Repr, Inhabited

/-- `AnonTree.nodes_number` (the cached `ast_structure.nodes_number`). -/
def AnonTree.nodes_number (a : AnonTree) : Nat :=
  get_nodes_number_in_ast a.tree

/-- `AnonTree.add_code_info`: append one occurrence. -/
def add_code_info (a : AnonTree) (ci : CodeInfo) : AnonTree :=
  { a with code_info_list := a.code_info_list ++ [ci] }

/-- `serialized_code.SerializedCode`: one canonical tree, the established
rate, and the list of anonymized variants (file bookkeeping is a side effect
the spec excludes from correctness). -/
structure SerializedCode where
  canon_tree : ATree
  rate : ℚ
  anon_trees : List AnonTree
deriving DecidableEq, Repr

/-- Python errors/conditions raised by the embedded operations.
`noGoalAvailable` is the spec's §7 taxonomy name for the no-full-solution
failure; the source never raises it, and it is included so that theorems can
distinguish it from the errors the source does raise
(`attributeErrorNoneType` — a `'NoneType' object has no attribute` error,
`zeroDivisionError`, and the `ValueError` that `log_and_raise_error` raises in
`add_anon_tree`, named `inconsistentRate` after the spec's taxonomy). -/
inductive PyError where
  | attributeErrorNoneType
  | zeroDivisionError
  | inconsistentRate
  | noGoalAvailable
deriving DecidableEq, Repr

/-- `SerializedCode.find_anon_tree`: scan the variants in order; skip a
variant whose node count differs from the query's ("It will work faster"),
otherwise run the full `are_asts_equal` comparison and return the first
variant that passes it. -/
def find_anon_tree : List AnonTree → ATree → Option AnonTree
  | [], _ => none
  | a_t :: rest, anon_tree =>
    if get_nodes_number_in_ast anon_tree ≠ a_t.nodes_number then
      find_anon_tree rest anon_tree
    else if are_asts_equal a_t.tree anon_tree then
      some a_t
    else
      find_anon_tree rest anon_tree

/-- The in-place `found_anon_tree.add_code_info(code_info)` of
`add_anon_tree`: the found variant is an alias into the variant list, so the
mutation appends `ci` to the variant that the `find_anon_tree` scan finds
(same scan order, same two-step test), leaving every other variant
unchanged. -/
def add_code_info_to_found : List AnonTree → ATree → CodeInfo → List AnonTree
  | [], _, _ => []
  | a_t :: rest, anon_tree, ci =>
    if get_nodes_number_in_ast anon_tree ≠ a_t.nodes_number then
      a_t :: add_code_info_to_found rest anon_tree ci
    else if are_asts_equal a_t.tree anon_tree then
      add_code_info a_t ci :: rest
    else
      a_t :: add_code_info_to_found rest anon_tree ci

/-- A freshly constructed `AnonTree(anon_tree, rate, ..., code_info)`. -/
def mk_anon_tree (t : ATree) (rate : ℚ) (ci : CodeInfo) : AnonTree :=
  { tree := t, rate := rate, code_info_list := [ci] }

/-- `SerializedCode.add_anon_tree`: raise (via `log_and_raise_error`) when the
new variant's rate disagrees with the established rate; otherwise either merge
into an AST-equal existing variant (returning `None`) or append one new
variant (returning its tree file, modelled by the tree itself). -/
def add_anon_tree (sc : SerializedCode) (anon_tree : ATree) (rate : ℚ)
    (ci : CodeInfo) : Except PyError (Option ATree × SerializedCode) :=
  if rate ≠ sc.rate then
    Except.error PyError.inconsistentRate
  else
    match find_anon_tree sc.anon_trees anon_tree with
    | some _ =>
        Except.ok (none,
          { sc with anon_trees := add_code_info_to_found sc.anon_trees anon_tree ci })
    | none =>
        Except.ok (some anon_tree,
          { sc with anon_trees := sc.anon_trees ++ [mk_anon_tree anon_tree rate ci] })

/-! ## Path finder (strategies V1 and V2) -/

/-- `solution_space/consts.py`: `DIFFS_PERCENT_TO_GO_DIRECTLY = 0.2`. -/
def DIFFS_PERCENT_TO_GO_DIRECTLY : ℚ := 1 / 5

/-- `solution_space/consts.py`: `DISTANCE_TO_GRAPH_THRESHOLD = 2`. -/
def DISTANCE_TO_GRAPH_THRESHOLD : ℚ := 2

/-- `solution_space/consts.py`: `ROLLBACK_PROBABILITY = 0.7`. -/
def ROLLBACK_PROBABILITY : ℚ := 7 / 10

/-- `solution_graph.Vertex`, restricted to what the path finders read.
Modelled from the spec: `solution_graph.py` is not under `src/`; the spec
(§3) gives a vertex a stable integer id and exactly one `SerializedCode`
(its canonical tree, rate and variants). -/
structure Vertex where
  id : Nat
  serialized_code : SerializedCode
deriving DecidableEq, Repr

/-- `SolutionGraph` as the path finders consume it. Modelled from the spec:
`solution_graph.py` and the `IPathFinder` base class are not under `src/`.
The spec gives the graph an end vertex whose parents are the goals (§4.4
step 1), a BFS traversal starting at the start vertex (§4.3
`getTraversal`), a pairwise distance `get_dist` backed by the distance
cache (§4.2, a non-negative integer), the path finder's `_empty_vertex`,
and a measured-candidate score relative to a fixed learner vertex (§4.5,
lower = better) used by `__choose_best_vertex` via `get_measured_vertex`;
the score is kept abstract here because it calls the external GumTree
edit-distance collaborator. -/
structure SolutionGraph where
  start_vertex : Vertex
  end_vertex_parents : List Vertex
  traversal : List Vertex
  empty_vertex : Vertex
  dist : Vertex → Vertex → Nat
  measure : Vertex → Vertex → ℚ

/-- `PathFinderV1.__is_most_of_path_is_done` (identical in `PathFinderV2` and
in the legacy `PathFinder`): `diffs_from_user_to_goal <=
diffs_from_empty_to_goal * DIFFS_PERCENT_TO_GO_DIRECTLY`, on integer
distances promoted to exact rational arithmetic. -/
def is_most_of_path_is_done (diffs_from_empty_to_goal diffs_from_user_to_goal : Nat) : Bool :=
  (diffs_from_user_to_goal : ℚ) ≤ (diffs_from_empty_to_goal : ℚ) * DIFFS_PERCENT_TO_GO_DIRECTLY

/-- `PathFinderV1.__is_far_from_graph` (identical in `PathFinderV2` and in the
legacy `PathFinder`): `diffs_from_user_to_graph_vertex /
diffs_from_user_to_goal > DISTANCE_TO_GRAPH_THRESHOLD`. The Python `/` is
true division and raises `ZeroDivisionError` on a zero divisor, modelled by
`none`. -/
def is_far_from_graph (diffs_from_user_to_goal diffs_from_user_to_graph_vertex : Nat) :
    Option Bool :=
  if diffs_from_user_to_goal = 0 then
    none
  else
    some ((diffs_from_user_to_graph_vertex : ℚ) / (diffs_from_user_to_goal : ℚ)
      > DISTANCE_TO_GRAPH_THRESHOLD)

/-- `PathFinderV2.__is_rate_worse`: `user_rate > 0 and graph_vertex_rate == 0`. -/
def is_rate_worse (user_rate graph_vertex_rate : ℚ) : Bool :=
  decide (user_rate > 0) && decide (graph_vertex_rate = 0)

/-- `PathFinderV1.__go_through_graph` on the three distances it reads
(`user_vertex.get_dist(goal)`, `self._empty_vertex.get_dist(user_vertex)`,
`user_vertex.get_dist(graph_vertex)`): `False` when most of the path is done,
otherwise `not __is_far_from_graph(...)`; `none` models the unguarded
division's `ZeroDivisionError`. -/
def go_through_graph_v1 (diffs_from_user_to_goal diffs_from_empty_to_user
    diffs_from_user_to_graph_vertex : Nat) : Option Bool :=
  if is_most_of_path_is_done (diffs_from_empty_to_user + diffs_from_user_to_goal)
      diffs_from_user_to_goal then
    some false
  else
    (is_far_from_graph diffs_from_user_to_goal diffs_from_user_to_graph_vertex).map (fun b => !b)

/-- `PathFinderV2.__go_through_graph`: as V1, with the `__is_rate_worse`
check (on `user_vertex.serialized_code.rate` and
`graph_vertex.serialized_code.rate`) between the most-of-path-done check and
the distance-ratio check. -/
def go_through_graph_v2 (diffs_from_user_to_goal diffs_from_empty_to_user
    diffs_from_user_to_graph_vertex : Nat) (user_rate graph_vertex_rate : ℚ) : Option Bool :=
  if is_most_of_path_is_done (diffs_from_empty_to_user + diffs_from_user_to_goal)
      diffs_from_user_to_goal then
    some false
  else if is_rate_worse user_rate graph_vertex_rate then
    some false
  else
    (is_far_from_graph diffs_from_user_to_goal diffs_from_user_to_graph_vertex).map (fun b => !b)

/-- The tail of `PathFinderV1.find_next_vertex` once a goal and a non-`None`
graph vertex are in hand: `if graph_vertex and self.__go_through_graph(...):
return graph_vertex else: return goal`, reading the three distances from the
graph. -/
def route_decision_v1 (g : SolutionGraph) (user_vertex graph_vertex goal : Vertex) :
    Except PyError Vertex :=
  match go_through_graph_v1 (g.dist user_vertex goal) (g.dist g.empty_vertex user_vertex)
      (g.dist user_vertex graph_vertex) with
  | none => Except.error PyError.zeroDivisionError
  | some true => Except.ok graph_vertex
  | some false => Except.ok goal

/-- The tail of `PathFinderV2.find_next_vertex` once a goal and a non-`None`
graph vertex are in hand. -/
def route_decision_v2 (g : SolutionGraph) (user_vertex graph_vertex goal : Vertex) :
    Except PyError Vertex :=
  match go_through_graph_v2 (g.dist user_vertex goal) (g.dist g.empty_vertex user_vertex)
      (g.dist user_vertex graph_vertex) user_vertex.serialized_code.rate
      graph_vertex.serialized_code.rate with
  | none => Except.error PyError.zeroDivisionError
  | some true => Except.ok graph_vertex
  | some false => Except.ok goal

/-- Python's stable `list.sort()` restricted to a boolean `__lt__`: stable
insertion sort, placing each element before the first already-placed element
that it is `lt`-below (binary insertion, which is what CPython's Timsort does
on short lists, is stable and agrees with this). -/
def py_insert {α : Type} (lt : α → α → Bool) (x : α) : List α → List α
  | [] => [x]
  | y :: ys => if lt x y then x :: y :: ys else y :: py_insert lt x ys

/-- Python's `candidates.sort()`. -/
def py_sort {α : Type} (lt : α → α → Bool) (l : List α) : List α :=
  l.foldl (fun acc x => py_insert lt x acc) []

/-- `PathFinderV1.__choose_best_vertex` / `PathFinderV2.__choose_best_vertex`:
`None` on an empty candidate list, otherwise sort the measured candidates
ascending (the configured `IMeasuredTree.__lt__` compares the measured
distance-to-user, here `g.measure user_vertex ·`) and return the first. -/
def choose_best_vertex (g : SolutionGraph) (user_vertex : Vertex) (vertices : List Vertex) :
    Option Vertex :=
  match vertices with
  | [] => none
  | _ =>
    (py_sort (fun a b => g.measure user_vertex a < g.measure user_vertex b) vertices).head?

/-- `PathFinderV1.__find_closest_goal` =
`__choose_best_vertex(user_vertex, self._graph.end_vertex.parents)`. -/
def find_closest_goal (g : SolutionGraph) (user_vertex : Vertex) : Option Vertex :=
  choose_best_vertex g user_vertex g.end_vertex_parents

/-- The external renderer test `get_code_from_tree(tree) == ''` used by
`__find_closest_vertex_with_path` to skip the empty-code vertex. Modelled
from the spec: the tree-to-source renderer is an external collaborator; a
tree renders to the empty string exactly when it is the tree of the empty
source. -/
def renders_to_empty_code (t : ATree) : Bool :=
  t = emptyATree

/-- `anon_trees[0]` of a vertex (the `SerializedCode` constructor guarantees
at least one variant; an empty list would be Python's `IndexError`, never hit
here). -/
def first_anon_tree (sc : SerializedCode) : ATree :=
  (sc.anon_trees.headI).tree

/-- `PathFinderV1.__find_closest_vertex_with_path`. Its first statement
`goal.get_dist(user_vertex)` dereferences `goal`; when no goal exists
(`__find_closest_goal` returned `None`) this raises Python's
`AttributeError: 'NoneType' object has no attribute 'get_dist'`, modelled by
`PyError.attributeErrorNoneType`. Otherwise: drop the start vertex from the
traversal, keep the vertices that are not canonically AST-equal to the
user's, are not the empty-code vertex (unless `to_add_empty`), and whose
distance to the goal is at most the user's, and pick the best. -/
def find_closest_vertex_with_path (g : SolutionGraph) (user_vertex : Vertex)
    (goal : Option Vertex) (to_add_empty : Bool) : Except PyError (Option Vertex) :=
  match goal with
  | none => Except.error PyError.attributeErrorNoneType
  | some goal =>
    let user_diffs_to_goal := g.dist goal user_vertex
    let vertices := g.traversal.erase g.start_vertex
    let candidates := vertices.filter (fun vertex =>
      !(are_asts_equal user_vertex.serialized_code.canon_tree
          vertex.serialized_code.canon_tree) &&
      !(renders_to_empty_code vertex.serialized_code.canon_tree &&
          renders_to_empty_code (first_anon_tree vertex.serialized_code) &&
          !to_add_empty) &&
      decide (g.dist vertex goal ≤ user_diffs_to_goal))
    Except.ok (choose_best_vertex g user_vertex candidates)

/-- `PathFinderV1.find_next_vertex`: find the closest goal, find the closest
graph vertex (which dereferences the goal and so fails first when there is no
goal), then route. The `(some _, none)` and `(none, none)` arms are
unreachable: a `None` goal already failed inside
`find_closest_vertex_with_path`. -/
def find_next_vertex_v1 (g : SolutionGraph) (user_vertex : Vertex) : Except PyError Vertex :=
  let goal := find_closest_goal g user_vertex
  match find_closest_vertex_with_path g user_vertex goal false with
  | Except.error e => Except.error e
  | Except.ok graph_vertex =>
    match graph_vertex, goal with
    | some graph_vertex, some goal => route_decision_v1 g user_vertex graph_vertex goal
    | none, some goal => Except.ok goal
    | _, none => Except.error PyError.attributeErrorNoneType

/-! ## Legacy scorer (`path_finder.py`): `PathFinder.__choose_best_vertex`
and `MeasuredVertex` -/

/-- `path_finder.MeasuredVertex`, restricted to the fields its comparison
reads: the wrapped vertex, `_distance` (a GumTree diffs number, a
non-negative integer) and `_users_count`. -/
structure MeasuredVertex where
  vertex : Vertex
  distance : Nat
  users_count : Nat
deriving DecidableEq, Repr

/-- `MeasuredVertex.__lt__`: `True` when `self._distance < o.distance`,
otherwise `self._users_count < o.users_count`. -/
def measured_vertex_lt (a b : MeasuredVertex) : Bool :=
  if a.distance < b.distance then true else a.users_count < b.users_count

/-- Legacy `PathFinder.__choose_best_vertex`: `None` on an empty list,
otherwise `candidates.sort(); return candidates[-1].vertex` — the LAST
element of the ascending sort. -/
def legacy_choose_best_vertex (candidates : List MeasuredVertex) : Option Vertex :=
  match candidates with
  | [] => none
  | _ => (py_sort measured_vertex_lt candidates).getLast?.map MeasuredVertex.vertex

/-! ## Loop removal (`solution_space_handler.__remove_loops`) -/

/-- `serialized_code.Code`: an anonymized tree, a canonical tree and a rate. -/
structure Code where
  anon_tree : ATree
  canon_tree : ATree
  rate : ℚ
deriving DecidableEq, Repr

/-- `Code.from_source('', TEST_RESULT.CORRECT_CODE.value)`: the synthetic
empty-code element that `__remove_loops` prepends. The external parser maps
the empty source to `emptyATree` for both tree kinds; `CORRECT_CODE` is the
runs-but-passes-no-tests rate `0`. -/
def emptyCode : Code :=
  { anon_tree := emptyATree, canon_tree := emptyATree, rate := 0 }

/-- One element of a `code_info_chain`. -/
abbrev ChainItem := Code × CodeInfo

/-- The inner scan of `__remove_loops`: the largest index (into `l`) of an
element whose anonymized tree is AST-equal to `current_anon_tree`
(`max(same_tree_indexes)` over the suffix after the current position),
`none` when `same_tree_indexes` is empty. -/
def last_same_tree_index (current_anon_tree : ATree) : List ChainItem → Option Nat
  | [] => none
  | x :: xs =>
    match last_same_tree_index current_anon_tree xs with
    | some k => some (k + 1)
    | none =>
      if are_asts_equal current_anon_tree x.1.anon_tree then some 0 else none

/-- The `while current_tree_index < len(code_info_chain)` loop of
`__remove_loops`: at position `i`, find the last later position holding an
AST-equal anonymized tree; if one exists at absolute position `i + 1 + k`,
delete the slice `[i : i+1+k]` (`del` keeps the element at the upper bound),
then advance. The loop runs at most `chain.length` iterations (the length
never grows and the index advances every iteration), so the structural fuel
below, always called with enough fuel, is exact. -/
def remove_loops_go : Nat → List ChainItem → Nat → List ChainItem
  | 0, chain, _ => chain
  | fuel + 1, chain, current_tree_index =>
    if h : current_tree_index < chain.length then
      match last_same_tree_index (chain.get ⟨current_tree_index, h⟩).1.anon_tree
          (chain.drop (current_tree_index + 1)) with
      | some k =>
          remove_loops_go fuel
            (chain.take current_tree_index ++ chain.drop (current_tree_index + 1 + k))
            (current_tree_index + 1)
      | none => remove_loops_go fuel chain (current_tree_index + 1)
    else chain

/-- `__remove_loops(code_info_chain, user)`: prepend the synthetic
`(Code.from_source(''), CodeInfo(user))` element, then run the
loop-collapsing scan. `CodeInfo(user)` carries only the user (the remaining
fields take their defaults, timestamp `0` here). -/
def remove_loops (code_info_chain : List ChainItem) (user : Nat) : List ChainItem :=
  let chain := (emptyCode, CodeInfo.mk user 0) :: code_info_chain
  remove_loops_go chain.length chain 0

/-! ## Concrete fixtures used by witnesses and counterexamples -/

/-- The start/empty vertex of the concrete graphs below. -/
def startVertex0 : Vertex :=
  ⟨0, ⟨emptyATree, 0, [⟨emptyATree, 0, []⟩]⟩⟩

/-- A learner vertex (rate `0`). -/
def userVertex0 : Vertex :=
  ⟨1, ⟨ATree.leaf 1, 0, [⟨ATree.leaf 1, 0, []⟩]⟩⟩

/-- A concrete graph with no full-solution vertex: `end_vertex.parents` is
empty. -/
def graphNoGoal : SolutionGraph :=
  { start_vertex := startVertex0, end_vertex_parents := [], traversal := [startVertex0],
    empty_vertex := startVertex0, dist := fun _ _ => 1, measure := fun _ _ => 0 }

/-- A learner vertex with partial credit (rate `1/2`). -/
def userVertexHalf : Vertex :=
  ⟨1, ⟨ATree.leaf 1, 1/2, [⟨ATree.leaf 1, 1/2, []⟩]⟩⟩

/-- A graph-anchor vertex with rate `1/4` — strictly worse than
`userVertexHalf` but nonzero. -/
def anchorVertexQuarter : Vertex :=
  ⟨2, ⟨ATree.leaf 2, 1/4, [⟨ATree.leaf 2, 1/4, []⟩]⟩⟩

/-- A graph-anchor vertex with rate `0`. -/
def anchorVertexZero : Vertex :=
  ⟨2, ⟨ATree.leaf 2, 0, [⟨ATree.leaf 2, 0, []⟩]⟩⟩

/-- A full-solution goal vertex (rate `1`). -/
def goalVertex0 : Vertex :=
  ⟨3, ⟨ATree.leaf 3, 1, [⟨ATree.leaf 3, 1, []⟩]⟩⟩

/-- A concrete distance table: `dist(learner→goal) = 10`,
`dist(empty→learner) = 10`, `dist(learner→anchor) = 5` — most-of-path-done
fails (`10 > 0.2 * 20`) and the anchor is not far (`5/10 ≤ 2`). -/
def dist10105 : Vertex → Vertex → Nat :=
  fun a b => if a.id == 0 then 10 else if b.id == 3 then 10 else 5

/-- A concrete graph around `dist10105`. -/
def graphRouting : SolutionGraph :=
  { start_vertex := startVertex0, end_vertex_parents := [goalVertex0],
    traversal := [startVertex0, anchorVertexQuarter, goalVertex0],
    empty_vertex := startVertex0, dist := dist10105, measure := fun _ _ => 0 }

/-! ## Claims about the routing decision (C5, C6, C10) -/

/-- The most-of-path-done check holds whenever the learner-to-goal distance
is zero (the total in the first argument is `deu + dug`). -/
theorem is_most_of_path_is_done_of_zero (deu : Nat) :
    is_most_of_path_is_done deu 0 = true := by
  unfold is_most_of_path_is_done DIFFS_PERCENT_TO_GO_DIRECTLY
  simp only [decide_eq_true_eq, Nat.cast_zero]
  positivity

/-- C5: For every hint request with a chosen goal and a non-None graph
anchor, strategy V1's routing decision recommends going directly to the goal
exactly when the learner has completed most of the journey —
`dist(learner→goal) ≤ 0.2 * (dist(empty→learner) + dist(learner→goal))` — or
the anchor is too far off the direct path —
`dist(learner→anchor) / dist(learner→goal) > 2`; in all other cases the graph
anchor is recommended. -/
theorem C5_routing_decision_v1 (g : SolutionGraph) (u gv goal : Vertex) :
    route_decision_v1 g u gv goal =
      Except.ok
        (if (g.dist u goal : ℚ) ≤
              DIFFS_PERCENT_TO_GO_DIRECTLY * ((g.dist g.empty_vertex u : ℚ) + (g.dist u goal : ℚ))
            ∨ (g.dist u gv : ℚ) / (g.dist u goal : ℚ) > DISTANCE_TO_GRAPH_THRESHOLD
          then goal else gv) := by
  unfold route_decision_v1 go_through_graph_v1 is_most_of_path_is_done is_far_from_graph
  set dug := g.dist u goal with hdug
  set deu := g.dist g.empty_vertex u with hdeu
  set dugv := g.dist u gv with hdugv
  simp only [Nat.cast_add]
  by_cases hA : (dug : ℚ) ≤ DIFFS_PERCENT_TO_GO_DIRECTLY * ((deu : ℚ) + (dug : ℚ))
  · have hA2 : (dug : ℚ) ≤ ((deu : ℚ) + (dug : ℚ)) * DIFFS_PERCENT_TO_GO_DIRECTLY := by
      rw [mul_comm]; exact hA
    simp [hA, hA2]
  · have hA2 : ¬ ((dug : ℚ) ≤ ((deu : ℚ) + (dug : ℚ)) * DIFFS_PERCENT_TO_GO_DIRECTLY) := by
      rw [mul_comm]; exact hA
    have hdug0 : dug ≠ 0 := by
      intro h0
      apply hA
      rw [h0]
      unfold DIFFS_PERCENT_TO_GO_DIRECTLY
      push_cast
      positivity
    by_cases hB : (dugv : ℚ) / (dug : ℚ) > DISTANCE_TO_GRAPH_THRESHOLD
    · simp [hA2, hdug0, hA, hB]
    · simp [hA2, hdug0, hA, hB]

/-- C10: In the routing decision of both path-finder strategies, with all
pairwise distances non-negative integers, the division
`dist(learner→anchor) / dist(learner→goal)` is never evaluated with a zero
divisor: whenever `dist(learner→goal) = 0` the most-of-path-done check
returns first, so `__go_through_graph` is total — it never raises
`ZeroDivisionError`. -/
theorem C10_no_zero_division (dug deu dugv : Nat) (user_rate graph_vertex_rate : ℚ) :
    (go_through_graph_v1 dug deu dugv).isSome ∧
      (go_through_graph_v2 dug deu dugv user_rate graph_vertex_rate).isSome := by
  by_cases h0 : dug = 0
  · subst h0
    have hmost := is_most_of_path_is_done_of_zero deu
    constructor
    · unfold go_through_graph_v1
      simp [hmost]
    · unfold go_through_graph_v2
      simp [hmost]
  · have hfar : (is_far_from_graph dug dugv).isSome := by
      unfold is_far_from_graph
      simp [h0]
    constructor
    · unfold go_through_graph_v1
      cases hm : is_most_of_path_is_done (deu + dug) dug <;>
        simp [hm, is_far_from_graph, h0]
    · unfold go_through_graph_v2
      cases hm : is_most_of_path_is_done (deu + dug) dug <;>
        cases hr : is_rate_worse user_rate graph_vertex_rate <;>
          simp [hm, hr, is_far_from_graph, h0]

/-- C6 counterexample: in strategy V2, with the learner at rate `1/2` and a
candidate anchor at the strictly worse rate `1/4`, and distances
`dist(learner→goal) = 10`, `dist(empty→learner) = 10`,
`dist(learner→anchor) = 5`, the routing decision recommends the anchor — it
does not return the goal — so "a regression is never recommended" fails for
strict rate comparison. -/
theorem C6_counterexample :
    anchorVertexQuarter.serialized_code.rate < userVertexHalf.serialized_code.rate ∧
      route_decision_v2 graphRouting userVertexHalf anchorVertexQuarter goalVertex0 =
        Except.ok anchorVertexQuarter ∧
      anchorVertexQuarter ≠ goalVertex0 := by
  refine ⟨by norm_num [anchorVertexQuarter, userVertexHalf], ?_, by decide⟩
  norm_num [route_decision_v2, graphRouting, dist10105, userVertexHalf, anchorVertexQuarter,
    goalVertex0, go_through_graph_v2, is_most_of_path_is_done, is_rate_worse, is_far_from_graph,
    DIFFS_PERCENT_TO_GO_DIRECTLY, DISTANCE_TO_GRAPH_THRESHOLD, startVertex0]

/-- C6 amended: in strategy V2, an anchor is rejected in favor of the goal
when `__is_rate_worse` holds, i.e. when the learner's rate is strictly
positive and the candidate anchor's rate equals `0` (anchor unsolved while
the learner has partial credit); for such an anchor the routing decision
always returns the goal. -/
theorem C6_amended_rate_worse (g : SolutionGraph) (u gv goal : Vertex)
    (hu : 0 < u.serialized_code.rate) (hgv : gv.serialized_code.rate = 0) :
    route_decision_v2 g u gv goal = Except.ok goal := by
  unfold route_decision_v2 go_through_graph_v2
  have hrw : is_rate_worse u.serialized_code.rate gv.serialized_code.rate = true := by
    unfold is_rate_worse
    simp [hu, hgv]
  cases hm : is_most_of_path_is_done
      (g.dist g.empty_vertex u + g.dist u goal) (g.dist u goal) <;>
    simp [hm, hrw]

/-- C6 witness: the amended claim at a concrete input — learner rate `1/2`,
anchor rate `0`. -/
theorem C6_witness :
    (0 : ℚ) < userVertexHalf.serialized_code.rate ∧
      anchorVertexZero.serialized_code.rate = 0 ∧
      route_decision_v2 graphRouting userVertexHalf anchorVertexZero goalVertex0 =
        Except.ok goalVertex0 :=
  ⟨by norm_num [userVertexHalf], by norm_num [anchorVertexZero],
    C6_amended_rate_worse graphRouting userVertexHalf anchorVertexZero goalVertex0
      (by norm_num [userVertexHalf]) (by norm_num [anchorVertexZero])⟩

/-! ## C7: the legacy best-vertex selection -/

/-- Candidate with distance `1` (closer) and population `5`. -/
def measuredClose : MeasuredVertex := ⟨userVertexHalf, 1, 5⟩

/-- Candidate with distance `2` (farther) and the same population `5`. -/
def measuredFar : MeasuredVertex := ⟨anchorVertexZero, 2, 5⟩

/-- C7: the legacy `PathFinder.__choose_best_vertex` sorts the measured
candidates ascending (`MeasuredVertex.__lt__` orders a smaller GumTree
distance first) and then returns `candidates[-1].vertex` — the LAST element.
At the failing input of two candidates with distances `1 < 2` and equal
population count it returns the distance-`2` candidate, whose score is
maximal, not minimal, among the candidates. -/
theorem C7_legacy_choose_best_vertex_returns_max :
    legacy_choose_best_vertex [measuredClose, measuredFar] = some measuredFar.vertex ∧
      measuredClose.distance < measuredFar.distance ∧
      measuredFar.vertex ≠ measuredClose.vertex := by
  refine ⟨?_, by decide, by decide⟩
  decide

/-! ## C1: hint request on a graph with no full-solution vertex -/

/-- C1 counterexample: on the concrete graph `graphNoGoal`, whose end vertex
has no parents, `find_next_vertex` fails with Python's
`AttributeError: 'NoneType' object has no attribute 'get_dist'` (raised when
`__find_closest_vertex_with_path` dereferences the absent goal), not with a
`NoGoalAvailable` condition: no such condition exists anywhere in the
source. -/
theorem C1_counterexample :
    find_next_vertex_v1 graphNoGoal userVertex0 =
        Except.error PyError.attributeErrorNoneType ∧
      find_next_vertex_v1 graphNoGoal userVertex0 ≠
        Except.error PyError.noGoalAvailable := by
  have h1 : find_next_vertex_v1 graphNoGoal userVertex0 =
      Except.error PyError.attributeErrorNoneType := rfl
  exact ⟨h1, by rw [h1]; simp⟩

/-- C1 amended: for every solution graph whose end vertex has no parents (no
full-solution vertex), `find_next_vertex` raises an error — it neither
returns `None` nor an arbitrary vertex — but the error is the generic
`NoneType` attribute error from `goal.get_dist(user_vertex)`, not an explicit
`NoGoalAvailable` condition. -/
theorem C1_amended_no_goal_fails (g : SolutionGraph) (u : Vertex)
    (h : g.end_vertex_parents = []) :
    find_next_vertex_v1 g u = Except.error PyError.attributeErrorNoneType := by
  unfold find_next_vertex_v1 find_closest_goal choose_best_vertex
  rw [h]
  rfl

/-- C1 witness: the amended claim at the concrete no-goal graph. -/
theorem C1_witness :
    graphNoGoal.end_vertex_parents = [] ∧
      find_next_vertex_v1 graphNoGoal userVertex0 =
        Except.error PyError.attributeErrorNoneType :=
  ⟨rfl, C1_amended_no_goal_fails graphNoGoal userVertex0 rfl⟩

/-! ## C8: inconsistent rate on `add_anon_tree` -/

/-- C8: for every `SerializedCode` with established rate and every attempt
to add an anonymized tree whose rate differs, `add_anon_tree` fails
immediately with the `InconsistentRate` error (the `ValueError` raised by
`log_and_raise_error` before any mutation), so no `CodeInfo` is appended and
no new variant is created: the operation produces no updated
`SerializedCode` at all. -/
theorem C8_inconsistent_rate (sc : SerializedCode) (anon_tree : ATree) (rate : ℚ)
    (ci : CodeInfo) (h : rate ≠ sc.rate) :
    add_anon_tree sc anon_tree rate ci = Except.error PyError.inconsistentRate := by
  unfold add_anon_tree
  simp [h]

/-- C8 witness: a concrete `SerializedCode` with rate `0` rejects a variant
with rate `1`. -/
theorem C8_witness :
    (1 : ℚ) ≠ userVertex0.serialized_code.rate ∧
      add_anon_tree userVertex0.serialized_code (ATree.leaf 9) 1 (CodeInfo.mk 4 4) =
        Except.error PyError.inconsistentRate :=
  ⟨by norm_num [userVertex0], C8_inconsistent_rate userVertex0.serialized_code (ATree.leaf 9) 1
    (CodeInfo.mk 4 4) (by norm_num [userVertex0])⟩

/-! ## C2: variant deduplication in `SerializedCode.add_anon_tree` -/

/-- AST-equal trees have equal node counts — the fact that makes the
node-count pre-filter of `find_anon_tree` sound. -/
theorem nodes_eq_of_asts_equal {a b : ATree} (h : are_asts_equal a b = true) :
    get_nodes_number_in_ast a = get_nodes_number_in_ast b := by
  unfold are_asts_equal at h
  simp only [decide_eq_true_eq] at h
  rw [h]

/-- A variant whose node count differs from the query's is not AST-equal to
it. -/
theorem asts_not_equal_of_nodes_ne {a_t : AnonTree} {t : ATree}
    (hn : get_nodes_number_in_ast t ≠ a_t.nodes_number) :
    are_asts_equal a_t.tree t = false := by
  cases h' : are_asts_equal a_t.tree t with
  | false => rfl
  | true =>
    exact absurd ((nodes_eq_of_asts_equal h').symm) hn

/-- The node-count pre-filter does not change the lookup's semantics:
`find_anon_tree` returns exactly what a plain scan for the first AST-equal
variant returns. -/
theorem find_anon_tree_eq_find? (l : List AnonTree) (t : ATree) :
    find_anon_tree l t = l.find? (fun a_t => are_asts_equal a_t.tree t) := by
  induction l with
  | nil => rfl
  | cons a_t rest ih =>
    by_cases hn : get_nodes_number_in_ast t ≠ a_t.nodes_number
    · have hne : are_asts_equal a_t.tree t = false := asts_not_equal_of_nodes_ne hn
      simp [find_anon_tree, hn, List.find?_cons, hne, ih]
    · cases ha : are_asts_equal a_t.tree t with
      | true => simp [find_anon_tree, hn, List.find?_cons, ha]
      | false => simp [find_anon_tree, hn, List.find?_cons, ha, ih]

/-- A found variant is a stored variant and is AST-equal to the query. -/
theorem find_anon_tree_mem_eq {l : List AnonTree} {t : ATree} {a : AnonTree}
    (h : find_anon_tree l t = some a) : a ∈ l ∧ a.tree = t := by
  rw [find_anon_tree_eq_find?] at h
  refine ⟨List.mem_of_find?_eq_some h, ?_⟩
  have := List.find?_some h
  simpa [are_asts_equal] using this

/-- The in-place merge: when the scan finds a variant, the variant list
decomposes as `l1 ++ a :: l2` with `a` the first AST-equal variant, and the
merge rewrites exactly `a` to `add_code_info a ci`, keeping `l1` and `l2`
unchanged. -/
theorem add_code_info_to_found_spec (l : List AnonTree) (t : ATree) (ci : CodeInfo)
    (a : AnonTree) (h : find_anon_tree l t = some a) :
    ∃ l1 l2, l = l1 ++ a :: l2 ∧ (∀ b ∈ l1, b.tree ≠ t) ∧
      add_code_info_to_found l t ci = l1 ++ add_code_info a ci :: l2 := by
  induction l with
  | nil => simp [find_anon_tree] at h
  | cons a_t rest ih =>
    by_cases hn : get_nodes_number_in_ast t ≠ a_t.nodes_number
    · rw [find_anon_tree, if_pos hn] at h
      obtain ⟨l1, l2, he, hall, hadd⟩ := ih h
      refine ⟨a_t :: l1, l2, by simp [he], ?_, ?_⟩
      · intro b hb
        rcases List.mem_cons.mp hb with hb | hb
        · subst hb
          intro hbt
          have : are_asts_equal b.tree t = true := by simp [are_asts_equal, hbt]
          rw [asts_not_equal_of_nodes_ne hn] at this
          exact Bool.false_ne_true this
        · exact hall b hb
      · rw [add_code_info_to_found, if_pos hn, hadd]
        simp
    · by_cases ha : are_asts_equal a_t.tree t = true
      · rw [find_anon_tree, if_neg hn, if_pos ha] at h
        have haeq : a = a_t := (Option.some.inj h).symm
        subst haeq
        refine ⟨[], rest, by simp, by simp, ?_⟩
        rw [add_code_info_to_found, if_neg hn, if_pos ha]
        simp
      · have ha' : are_asts_equal a_t.tree t = false := by
          cases h' : are_asts_equal a_t.tree t with
          | false => rfl
          | true => exact absurd h' ha
        rw [find_anon_tree, if_neg hn, ha', if_neg (by simp)] at h
        obtain ⟨l1, l2, he, hall, hadd⟩ := ih h
        refine ⟨a_t :: l1, l2, by simp [he], ?_, ?_⟩
        · intro b hb
          rcases List.mem_cons.mp hb with hb | hb
          · subst hb
            intro hbt
            have : are_asts_equal b.tree t = true := by simp [are_asts_equal, hbt]
            rw [ha'] at this
            exact Bool.false_ne_true this
          · exact hall b hb
        · rw [add_code_info_to_found, if_neg hn, ha', if_neg (by simp), hadd]
          simp

/-- When no stored variant is AST-equal to the query, the scan finds
nothing. -/
theorem find_anon_tree_eq_none {l : List AnonTree} {t : ATree}
    (h : ∀ a ∈ l, a.tree ≠ t) : find_anon_tree l t = none := by
  rw [find_anon_tree_eq_find?]
  rw [List.find?_eq_none]
  intro a ha
  simp [are_asts_equal]
  exact h a ha

/-- C2: for every `SerializedCode` and inserted anonymized tree with matching
rate: the AST-equality lookup behaves as a plain first-AST-equal-variant
search (the node-count pre-filter skips full comparisons without changing the
result) and only ever returns an AST-equal stored variant; if some stored
variant is AST-equal to the new tree, `add_anon_tree` appends the new
`CodeInfo` to the first such variant, leaves every other variant unchanged
(so no new variant is created) and returns `None`; otherwise it appends
exactly one new variant carrying the `CodeInfo`. -/
theorem C2_add_anon_tree_dedup (sc : SerializedCode) (anon_tree : ATree) (rate : ℚ)
    (ci : CodeInfo) (hrate : rate = sc.rate) :
    (find_anon_tree sc.anon_trees anon_tree
        = sc.anon_trees.find? (fun a_t => are_asts_equal a_t.tree anon_tree))
    ∧ (∀ a, find_anon_tree sc.anon_trees anon_tree = some a →
        a ∈ sc.anon_trees ∧ a.tree = anon_tree)
    ∧ ((∃ a ∈ sc.anon_trees, a.tree = anon_tree) →
        ∃ l1 a l2, sc.anon_trees = l1 ++ a :: l2 ∧ a.tree = anon_tree
          ∧ (∀ b ∈ l1, b.tree ≠ anon_tree)
          ∧ add_anon_tree sc anon_tree rate ci
              = Except.ok (none, { sc with anon_trees := l1 ++ add_code_info a ci :: l2 }))
    ∧ ((∀ a ∈ sc.anon_trees, a.tree ≠ anon_tree) →
        add_anon_tree sc anon_tree rate ci
          = Except.ok (some anon_tree,
              { sc with anon_trees := sc.anon_trees ++ [mk_anon_tree anon_tree rate ci] })) := by
  refine ⟨find_anon_tree_eq_find? _ _, fun a h => find_anon_tree_mem_eq h, ?_, ?_⟩
  · rintro ⟨a0, ha0, ha0t⟩
    cases hf : find_anon_tree sc.anon_trees anon_tree with
    | none =>
      rw [find_anon_tree_eq_find?, List.find?_eq_none] at hf
      have := hf a0 ha0
      simp [are_asts_equal, ha0t] at this
    | some a =>
      obtain ⟨l1, l2, he, hall, hadd⟩ := add_code_info_to_found_spec _ _ ci _ hf
      refine ⟨l1, a, l2, he, (find_anon_tree_mem_eq hf).2, hall, ?_⟩
      unfold add_anon_tree
      rw [if_neg (by simp [hrate]), hf, hadd]
  · intro hnone
    unfold add_anon_tree
    rw [if_neg (by simp [hrate]), find_anon_tree_eq_none hnone]

/-- A concrete store with two variants, the second AST-equal to the inserted
tree. -/
def serializedCode2 : SerializedCode :=
  { canon_tree := ATree.leaf 1, rate := 0,
    anon_trees := [⟨ATree.leaf 1, 0, [CodeInfo.mk 1 1]⟩,
                   ⟨ATree.node 5 (ATree.leaf 1) (ATree.leaf 2), 0, [CodeInfo.mk 2 2]⟩] }

/-- C2 witness: the claim instantiated at `serializedCode2`, inserting the
tree of its second variant with the matching rate `0`. -/
theorem C2_witness :
    (find_anon_tree serializedCode2.anon_trees (ATree.node 5 (ATree.leaf 1) (ATree.leaf 2))
        = serializedCode2.anon_trees.find?
            (fun a_t => are_asts_equal a_t.tree (ATree.node 5 (ATree.leaf 1) (ATree.leaf 2))))
    ∧ (∀ a, find_anon_tree serializedCode2.anon_trees
            (ATree.node 5 (ATree.leaf 1) (ATree.leaf 2)) = some a →
        a ∈ serializedCode2.anon_trees ∧ a.tree = ATree.node 5 (ATree.leaf 1) (ATree.leaf 2))
    ∧ ((∃ a ∈ serializedCode2.anon_trees, a.tree = ATree.node 5 (ATree.leaf 1) (ATree.leaf 2)) →
        ∃ l1 a l2, serializedCode2.anon_trees = l1 ++ a :: l2
          ∧ a.tree = ATree.node 5 (ATree.leaf 1) (ATree.leaf 2)
          ∧ (∀ b ∈ l1, b.tree ≠ ATree.node 5 (ATree.leaf 1) (ATree.leaf 2))
          ∧ add_anon_tree serializedCode2 (ATree.node 5 (ATree.leaf 1) (ATree.leaf 2)) 0
              (CodeInfo.mk 3 3)
              = Except.ok (none, { serializedCode2 with
                  anon_trees := l1 ++ add_code_info a (CodeInfo.mk 3 3) :: l2 }))
    ∧ ((∀ a ∈ serializedCode2.anon_trees,
          a.tree ≠ ATree.node 5 (ATree.leaf 1) (ATree.leaf 2)) →
        add_anon_tree serializedCode2 (ATree.node 5 (ATree.leaf 1) (ATree.leaf 2)) 0
            (CodeInfo.mk 3 3)
          = Except.ok (some (ATree.node 5 (ATree.leaf 1) (ATree.leaf 2)),
              { serializedCode2 with
                anon_trees := serializedCode2.anon_trees
                  ++ [mk_anon_tree (ATree.node 5 (ATree.leaf 1) (ATree.leaf 2)) 0
                        (CodeInfo.mk 3 3)] })) :=
  C2_add_anon_tree_dedup serializedCode2 (ATree.node 5 (ATree.leaf 1) (ATree.leaf 2)) 0
    (CodeInfo.mk 3 3) rfl

/-! ## C3, C4, C9: loop removal -/

/-- Unfolding lemma for one iteration of the `__remove_loops` while loop. -/
theorem remove_loops_go_succ (fuel : Nat) (chain : List ChainItem) (i : Nat) :
    remove_loops_go (fuel + 1) chain i =
      if h : i < chain.length then
        match last_same_tree_index (chain.get ⟨i, h⟩).1.anon_tree (chain.drop (i + 1)) with
        | some k => remove_loops_go fuel (chain.take i ++ chain.drop (i + 1 + k)) (i + 1)
        | none => remove_loops_go fuel chain (i + 1)
      else chain := rfl

/-- One iteration when a loop closes at relative offset `k`. -/
theorem remove_loops_go_succ_some (fuel : Nat) (chain : List ChainItem) (i : Nat)
    (h : i < chain.length) (k : Nat)
    (hl : last_same_tree_index (chain.get ⟨i, h⟩).1.anon_tree (chain.drop (i + 1))
        = some k) :
    remove_loops_go (fuel + 1) chain i
      = remove_loops_go fuel (chain.take i ++ chain.drop (i + 1 + k)) (i + 1) := by
  rw [remove_loops_go_succ, dif_pos h, hl]

/-- One iteration when no loop closes at the current position. -/
theorem remove_loops_go_succ_none (fuel : Nat) (chain : List ChainItem) (i : Nat)
    (h : i < chain.length)
    (hl : last_same_tree_index (chain.get ⟨i, h⟩).1.anon_tree (chain.drop (i + 1))
        = none) :
    remove_loops_go (fuel + 1) chain i = remove_loops_go fuel chain (i + 1) := by
  rw [remove_loops_go_succ, dif_pos h, hl]

/-- An empty scan result means no element of the suffix is AST-equal to the
current tree. -/
theorem last_same_tree_index_none {cur : ATree} :
    ∀ {l : List ChainItem}, last_same_tree_index cur l = none →
      ∀ y ∈ l, y.1.anon_tree ≠ cur := by
  intro l
  induction l with
  | nil => intro _ y hy; simp at hy
  | cons a xs ih =>
    intro h y hy
    rw [last_same_tree_index] at h
    cases hxs : last_same_tree_index cur xs with
    | some k' => rw [hxs] at h; simp at h
    | none =>
      rw [hxs] at h
      by_cases ha : are_asts_equal cur a.1.anon_tree = true
      · rw [if_pos ha] at h; simp at h
      · rcases List.mem_cons.mp hy with hy | hy
        · subst hy
          intro hc
          exact ha (by simp [are_asts_equal, hc])
        · exact ih hxs y hy

/-- If no element of the suffix is AST-equal to the current tree, the scan
finds nothing. -/
theorem last_same_tree_index_none_of {cur : ATree} :
    ∀ {l : List ChainItem}, (∀ y ∈ l, y.1.anon_tree ≠ cur) →
      last_same_tree_index cur l = none := by
  intro l
  induction l with
  | nil => intro _; rfl
  | cons a xs ih =>
    intro h
    rw [last_same_tree_index, ih (fun y hy => h y (List.mem_cons_of_mem a hy))]
    rw [if_neg]
    intro hc
    exact h a (List.mem_cons_self a xs) (by simpa [are_asts_equal, eq_comm] using hc)

/-- A successful scan returns the index of the LAST AST-equal element:
the element there matches and nothing after it does
(`max(same_tree_indexes)`). -/
theorem last_same_tree_index_some {cur : ATree} :
    ∀ {l : List ChainItem} {k : Nat}, last_same_tree_index cur l = some k →
      ∃ x, l[k]? = some x ∧ x.1.anon_tree = cur ∧
        ∀ m y, k < m → l[m]? = some y → y.1.anon_tree ≠ cur := by
  intro l
  induction l with
  | nil => intro k h; simp [last_same_tree_index] at h
  | cons a xs ih =>
    intro k h
    rw [last_same_tree_index] at h
    cases hxs : last_same_tree_index cur xs with
    | some k' =>
      rw [hxs] at h
      obtain rfl : k = k' + 1 := (Option.some.inj h).symm
      obtain ⟨x, hx, hxt, hmax⟩ := ih hxs
      refine ⟨x, by simpa using hx, hxt, ?_⟩
      intro m y hm hy
      cases m with
      | zero => omega
      | succ m' =>
        simp only [List.getElem?_cons_succ] at hy
        exact hmax m' y (by omega) hy
    | none =>
      rw [hxs] at h
      by_cases ha : are_asts_equal cur a.1.anon_tree = true
      · rw [if_pos ha] at h
        obtain rfl : k = 0 := (Option.some.inj h).symm
        refine ⟨a, by simp, by simpa [are_asts_equal, eq_comm] using ha, ?_⟩
        intro m y hm hy
        cases m with
        | zero => omega
        | succ m' =>
          simp only [List.getElem?_cons_succ] at hy
          exact last_same_tree_index_none hxs y
            (List.mem_iff_getElem?.mpr ⟨m', hy⟩)
      · rw [if_neg ha] at h
        simp at h

/-- If the head is AST-equal to the current tree and nothing in the tail is,
the scan returns index `0`. -/
theorem last_same_tree_index_cons_self {cur : ATree} {x : ChainItem} {xs : List ChainItem}
    (hx : x.1.anon_tree = cur) (hxs : ∀ y ∈ xs, y.1.anon_tree ≠ cur) :
    last_same_tree_index cur (x :: xs) = some 0 := by
  rw [last_same_tree_index, last_same_tree_index_none_of hxs, if_pos]
  simp [are_asts_equal, hx]

/-- Loop invariant of `__remove_loops`: every chain element before position
`i` has no AST-equal element anywhere after it. -/
def NoLaterDup (chain : List ChainItem) (i : Nat) : Prop :=
  ∀ j k x y, j < i → j < k → chain[j]? = some x → chain[k]? = some y →
    x.1.anon_tree ≠ y.1.anon_tree

/-- Indexing after `del chain[i : i+1+k]`: positions below `i` are unmoved,
positions from `i` on shift past the deleted slice. -/
theorem deleted_getElem? (chain : List ChainItem) (i k m : Nat) (hi : i ≤ chain.length) :
    (chain.take i ++ chain.drop (i + 1 + k))[m]? =
      if m < i then chain[m]? else chain[m + 1 + k]? := by
  have hlen : (chain.take i).length = i := by
    simp [List.length_take, Nat.min_eq_left hi]
  by_cases hm : m < i
  · rw [if_pos hm, List.getElem?_append_left (by omega), List.getElem?_take_of_lt hm]
  · rw [if_neg hm, List.getElem?_append_right (by omega), List.getElem?_drop, hlen]
    congr 1
    omega

/-- The loop preserves the invariant and, once the index passes the end,
leaves a chain whose elements are pairwise AST-distinct. -/
theorem remove_loops_go_pairwise :
    ∀ (fuel : Nat) (chain : List ChainItem) (i : Nat),
      chain.length - i ≤ fuel → NoLaterDup chain i →
      (remove_loops_go fuel chain i).Pairwise
        (fun a b => a.1.anon_tree ≠ b.1.anon_tree) := by
  intro fuel
  induction fuel with
  | zero =>
    intro chain i hfuel hnld
    rw [remove_loops_go, List.pairwise_iff_getElem]
    intro a b ha hb hab
    exact hnld a b _ _ (by omega) hab (List.getElem?_eq_getElem ha)
      (List.getElem?_eq_getElem hb)
  | succ fuel ih =>
    intro chain i hfuel hnld
    by_cases h : i < chain.length
    · cases hl : last_same_tree_index (chain.get ⟨i, h⟩).1.anon_tree
          (chain.drop (i + 1)) with
      | some k =>
        rw [remove_loops_go_succ_some fuel chain i h k hl]
        obtain ⟨x, hx, hxt, hmax⟩ := last_same_tree_index_some hl
        have hk : i + 1 + k < chain.length := by
          obtain ⟨hklt, -⟩ := List.getElem?_eq_some_iff.mp hx
          simp only [List.length_drop] at hklt
          omega
        have hxx : chain[i + 1 + k]? = some x := by
          rw [← List.getElem?_drop]
          exact hx
        apply ih
        · simp only [List.length_append, List.length_take, List.length_drop]
          omega
        · intro j k' x' y' hj hjk hx' hy'
          rw [deleted_getElem? chain i k _ (le_of_lt h)] at hx' hy'
          by_cases hji : j < i
          · rw [if_pos hji] at hx'
            by_cases hki : k' < i
            · rw [if_pos hki] at hy'
              exact hnld j k' x' y' hji hjk hx' hy'
            · rw [if_neg hki] at hy'
              exact hnld j (k' + 1 + k) x' y' hji (by omega) hx' hy'
          · have hj_eq : j = i := by omega
            subst hj_eq
            rw [if_neg (by omega)] at hx'
            rw [if_neg (by omega)] at hy'
            have hx'x : x' = x := by
              rw [hxx] at hx'
              exact (Option.some.inj hx').symm
            subst hx'x
            have hy'' : (chain.drop (j + 1))[k' + k - j]? = some y' := by
              rw [List.getElem?_drop]
              rw [show j + 1 + (k' + k - j) = k' + 1 + k by omega]
              exact hy'
            intro hc
            exact hmax (k' + k - j) y' (by omega) hy'' (by rw [← hc, hxt])
      | none =>
        rw [remove_loops_go_succ_none fuel chain i h hl]
        apply ih
        · omega
        · intro j k' x' y' hj hjk hx' hy'
          by_cases hji : j < i
          · exact hnld j k' x' y' hji hjk hx' hy'
          · have hj_eq : j = i := by omega
            subst hj_eq
            have hx'' : x' = chain.get ⟨j, h⟩ := by
              rw [List.getElem?_eq_getElem h] at hx'
              simpa [List.get_eq_getElem] using (Option.some.inj hx').symm
            have hmem : y' ∈ chain.drop (j + 1) := by
              rw [List.mem_iff_getElem?]
              refine ⟨k' - (j + 1), ?_⟩
              rw [List.getElem?_drop, show j + 1 + (k' - (j + 1)) = k' by omega]
              exact hy'
            have hne := last_same_tree_index_none hl y' hmem
            rw [hx'']
            exact fun hc => hne hc.symm
    · rw [remove_loops_go_succ, dif_neg h]
      rw [List.pairwise_iff_getElem]
      intro a b ha hb hab
      exact hnld a b _ _ (by omega) hab (List.getElem?_eq_getElem ha)
        (List.getElem?_eq_getElem hb)

/-- The loop never changes the first `i` elements once the index has reached
`i`. -/
theorem remove_loops_go_take :
    ∀ (fuel : Nat) (chain : List ChainItem) (i : Nat),
      (remove_loops_go fuel chain i).take i = chain.take i := by
  intro fuel
  induction fuel with
  | zero => intro chain i; rfl
  | succ fuel ih =>
    intro chain i
    by_cases h : i < chain.length
    · cases hl : last_same_tree_index (chain.get ⟨i, h⟩).1.anon_tree
          (chain.drop (i + 1)) with
      | some k =>
        rw [remove_loops_go_succ_some fuel chain i h k hl]
        have h1 : (remove_loops_go fuel (chain.take i ++ chain.drop (i + 1 + k)) (i + 1)).take i
            = ((remove_loops_go fuel (chain.take i ++ chain.drop (i + 1 + k)) (i + 1)).take
                (i + 1)).take i := by
          rw [List.take_take, Nat.min_eq_left (by omega)]
        rw [h1, ih, List.take_take, Nat.min_eq_left (by omega),
          List.take_append_of_le_length (by simp [List.length_take]; omega),
          List.take_take, Nat.min_self]
      | none =>
        rw [remove_loops_go_succ_none fuel chain i h hl]
        have h1 : (remove_loops_go fuel chain (i + 1)).take i
            = ((remove_loops_go fuel chain (i + 1)).take (i + 1)).take i := by
          rw [List.take_take, Nat.min_eq_left (by omega)]
        rw [h1, ih, List.take_take, Nat.min_eq_left (by omega)]
    · rw [remove_loops_go_succ, dif_neg h]

/-- On a chain whose elements are already pairwise AST-distinct the loop is a
no-op, whatever the starting index. -/
theorem remove_loops_go_noop :
    ∀ (fuel : Nat) (chain : List ChainItem) (i : Nat),
      chain.Pairwise (fun a b => a.1.anon_tree ≠ b.1.anon_tree) →
      remove_loops_go fuel chain i = chain := by
  intro fuel
  induction fuel with
  | zero => intro chain i _; rfl
  | succ fuel ih =>
    intro chain i hpair
    by_cases h : i < chain.length
    · have hnone : last_same_tree_index (chain.get ⟨i, h⟩).1.anon_tree
          (chain.drop (i + 1)) = none := by
        apply last_same_tree_index_none_of
        intro y hy
        obtain ⟨m, hm⟩ := List.mem_iff_getElem?.mp hy
        rw [List.getElem?_drop] at hm
        obtain ⟨hmlt, hmy⟩ := List.getElem?_eq_some_iff.mp hm
        have := List.pairwise_iff_getElem.mp hpair i (i + 1 + m) h hmlt (by omega)
        rw [hmy] at this
        simpa [List.get_eq_getElem] using fun hc => this hc.symm
      rw [remove_loops_go_succ_none fuel chain i h hnone]
      exact ih chain (i + 1) hpair
    · rw [remove_loops_go_succ, dif_neg h]

/-- The loop keeps a non-empty chain non-empty and keeps the AST-equality
class of its first element. -/
theorem remove_loops_go_head (fuel : Nat) (chain : List ChainItem)
    (h0 : 0 < chain.length) :
    ∃ x rest, remove_loops_go fuel chain 0 = x :: rest ∧
      x.1.anon_tree = (chain.get ⟨0, h0⟩).1.anon_tree := by
  have htake : ∀ (c : List ChainItem) (y : ChainItem) (l : List ChainItem)
      (res : List ChainItem), res.take 1 = (y :: l).take 1 →
      ∃ rest, res = y :: rest := by
    intro c y l res hres
    cases res with
    | nil => simp at hres
    | cons r rs =>
      simp only [List.take_succ_cons, List.take_zero] at hres
      obtain rfl : r = y := by simpa using hres
      exact ⟨rs, rfl⟩
  cases fuel with
  | zero =>
    cases chain with
    | nil => simp at h0
    | cons a l => exact ⟨a, l, rfl, rfl⟩
  | succ fuel =>
    cases hl : last_same_tree_index (chain.get ⟨0, h0⟩).1.anon_tree (chain.drop 1) with
    | some k =>
      obtain ⟨x, hx, hxt, -⟩ := last_same_tree_index_some hl
      have hk : 1 + k < chain.length := by
        obtain ⟨hklt, -⟩ := List.getElem?_eq_some_iff.mp hx
        simp only [List.length_drop] at hklt
        omega
      have hnew : chain.take 0 ++ chain.drop (0 + 1 + k) = chain.drop (1 + k) := by
        simp
      rw [remove_loops_go_succ_some fuel chain 0 h0 k hl, hnew]
      have hd0 : (chain.drop (1 + k))[0]? = some x := by
        rw [List.getElem?_drop, show 1 + k + 0 = 1 + k by omega,
          ← List.getElem?_drop chain 1 k]
        exact hx
      obtain ⟨y, l, hyl⟩ : ∃ y l, chain.drop (1 + k) = y :: l := by
        cases hc : chain.drop (1 + k) with
        | nil => rw [hc] at hd0; simp at hd0
        | cons y l => exact ⟨y, l, rfl⟩
      have hy : y = x := by
        rw [hyl] at hd0
        simpa using hd0
      have h2 := remove_loops_go_take fuel (chain.drop (1 + k)) 1
      rw [hyl] at h2
      obtain ⟨rest, hrest⟩ := htake chain y l _ (by simpa using h2)
      rw [hyl]
      exact ⟨y, rest, hrest, by rw [hy, hxt]⟩
    | none =>
      rw [remove_loops_go_succ_none fuel chain 0 h0 hl]
      have h2 := remove_loops_go_take fuel chain 1
      obtain ⟨y, l, hyl⟩ : ∃ y l, chain = y :: l := by
        cases chain with
        | nil => simp at h0
        | cons y l => exact ⟨y, l, rfl⟩
      subst hyl
      obtain ⟨rest, hrest⟩ := htake (y :: l) y l _ (by simpa using h2)
      exact ⟨y, rest, hrest, rfl⟩

/-- `__remove_loops` always returns a non-empty chain headed by an element
AST-equal to the synthetic empty-code element, with all surviving elements
pairwise AST-distinct. -/
theorem remove_loops_spec (code_info_chain : List ChainItem) (user : Nat) :
    ∃ x rest, remove_loops code_info_chain user = x :: rest ∧
      x.1.anon_tree = emptyATree ∧
      (x :: rest).Pairwise (fun a b => a.1.anon_tree ≠ b.1.anon_tree) := by
  unfold remove_loops
  have h0 : 0 < ((emptyCode, CodeInfo.mk user 0) :: code_info_chain).length := by
    simp
  obtain ⟨x, rest, hres, hx⟩ :=
    remove_loops_go_head ((emptyCode, CodeInfo.mk user 0) :: code_info_chain).length
      ((emptyCode, CodeInfo.mk user 0) :: code_info_chain) h0
  have hpair := remove_loops_go_pairwise
    ((emptyCode, CodeInfo.mk user 0) :: code_info_chain).length
    ((emptyCode, CodeInfo.mk user 0) :: code_info_chain) 0 (by omega)
    (by intro j k x y hj _ _ _; exact absurd hj (Nat.not_lt_zero j))
  rw [hres] at hpair
  exact ⟨x, rest, hres, by rw [hx]; rfl, hpair⟩

/-- A chain element with both trees equal to `t`, owned by user `7`, with a
timestamp distinguishing the occurrence. -/
def chainItem (t : ATree) (stamp : Nat) : ChainItem :=
  ({ anon_tree := t, canon_tree := t, rate := 0 }, CodeInfo.mk 7 stamp)

/-- The spec's example chain `T1 → T2 → T3 → T1 → T4` (four distinct
AST-equality classes, with `T1` revisited). -/
def exampleChain : List ChainItem :=
  [chainItem (ATree.leaf 1) 1, chainItem (ATree.leaf 2) 2, chainItem (ATree.leaf 3) 3,
   chainItem (ATree.leaf 1) 4, chainItem (ATree.leaf 4) 5]

/-- C3: loop removal on the chain with classes `[T1, T2, T3, T1, T4]` yields
`[empty, T1, T4]` after the synthetic empty-code element is prepended; the
kept `T1` element is the LAST occurrence of its class (the one with
timestamp `4`, not `1`), and everything strictly between the first `T1` and
its last AST-equal occurrence is deleted. -/
theorem C3_remove_loops_example :
    remove_loops exampleChain 7 =
      [(emptyCode, CodeInfo.mk 7 0), chainItem (ATree.leaf 1) 4,
       chainItem (ATree.leaf 4) 5] := by
  decide

/-- C9: for every input chain, the output of loop removal is non-empty, its
first element is AST-equal to the synthetic empty-code element, and no two
elements of the output have AST-equal anonymized trees. -/
theorem C9_remove_loops_invariants (code_info_chain : List ChainItem) (user : Nat) :
    ∃ x rest, remove_loops code_info_chain user = x :: rest ∧
      x.1.anon_tree = emptyATree ∧
      (x :: rest).Pairwise (fun a b => a.1.anon_tree ≠ b.1.anon_tree) :=
  remove_loops_spec code_info_chain user

/-- C4: loop removal is idempotent — applying it a second time (which
prepends its own synthetic empty-code element) returns the first
application's result unchanged. -/
theorem C4_remove_loops_idempotent (code_info_chain : List ChainItem) (user user' : Nat) :
    remove_loops (remove_loops code_info_chain user) user' =
      remove_loops code_info_chain user := by
  obtain ⟨x, rest, hres, hx, hpair⟩ := remove_loops_spec code_info_chain user
  rw [hres]
  unfold remove_loops
  simp only [List.length_cons]
  have h0 : 0 < ((emptyCode, CodeInfo.mk user' 0) :: x :: rest).length := by simp
  have hcur : (((emptyCode, CodeInfo.mk user' 0) :: x :: rest).get ⟨0, h0⟩).1.anon_tree
      = emptyATree := rfl
  have htail : ∀ y ∈ rest, y.1.anon_tree ≠ emptyATree := by
    intro y hy
    have hne := (List.pairwise_cons.mp hpair).1 y hy
    rw [hx] at hne
    exact fun hc => hne hc.symm
  have hlast : last_same_tree_index
      ((((emptyCode, CodeInfo.mk user' 0) :: x :: rest).get ⟨0, h0⟩).1.anon_tree)
      (((emptyCode, CodeInfo.mk user' 0) :: x :: rest).drop (0 + 1)) = some 0 := by
    rw [hcur]
    simpa using last_same_tree_index_cons_self hx htail
  rw [remove_loops_go_succ_some (rest.length + 1) _ 0 h0 0 hlast]
  have hslice : ((emptyCode, CodeInfo.mk user' 0) :: x :: rest).take 0 ++
      ((emptyCode, CodeInfo.mk user' 0) :: x :: rest).drop (0 + 1 + 0) = x :: rest := by
    simp
  rw [hslice]
  exact remove_loops_go_noop (rest.length + 1) (x :: rest) (0 + 1) hpair

end CodeTracker
